import Mathlib

set_option maxRecDepth 4000

/-!
Verification of the ollamark benchmark-ingestion server.

The Go source (server `main.go` of the ollamark repository) is shallowly
embedded below: pure helpers become Lean functions, the MongoDB store becomes
an explicit list of records, wall-clock time becomes an explicit `now`
parameter, and Go panics become `Except.error`.  External library calls
(crypto/sha256, strings.Repeat, the gin middleware chain) are translated from
their documented deterministic behaviour so that every definition is
executable.
-/

deriving instance DecidableEq for Except

namespace Ollamark

/-! ## SHA-256 (translation of Go crypto/sha256, FIPS 180-4) -/

/-- Truncate to 32 bits. -/
def w32 (n : Nat) : Nat := n % 4294967296

/-- Rotate a 32-bit word right by `n`. -/
def rotr32 (x n : Nat) : Nat := w32 ((x >>> n) ||| (x <<< (32 - n)))

def ch32 (x y z : Nat) : Nat := (x &&& y) ^^^ ((x ^^^ 4294967295) &&& z)

def maj32 (x y z : Nat) : Nat := (x &&& y) ^^^ (x &&& z) ^^^ (y &&& z)

def bsig0 (x : Nat) : Nat := rotr32 x 2 ^^^ rotr32 x 13 ^^^ rotr32 x 22

def bsig1 (x : Nat) : Nat := rotr32 x 6 ^^^ rotr32 x 11 ^^^ rotr32 x 25

def ssig0 (x : Nat) : Nat := rotr32 x 7 ^^^ rotr32 x 18 ^^^ (x >>> 3)

def ssig1 (x : Nat) : Nat := rotr32 x 17 ^^^ rotr32 x 19 ^^^ (x >>> 10)

/-- The 64 SHA-256 round constants. -/
def shaK : List Nat :=
  [1116352408, 1899447441, 3049323471, 3921009573, 961987163,
   1508970993, 2453635748, 2870763221, 3624381080, 310598401,
   607225278, 1426881987, 1925078388, 2162078206, 2614888103,
   3248222580, 3835390401, 4022224774, 264347078, 604807628,
   770255983, 1249150122, 1555081692, 1996064986, 2554220882,
   2821834349, 2952996808, 3210313671, 3336571891, 3584528711,
   113926993, 338241895, 666307205, 773529912, 1294757372,
   1396182291, 1695183700, 1986661051, 2177026350, 2456956037,
   2730485921, 2820302411, 3259730800, 3345764771, 3516065817,
   3600352804, 4094571909, 275423344, 430227734, 506948616,
   659060556, 883997877, 958139571, 1322822218, 1537002063,
   1747873779, 1955562222, 2024104815, 2227730452, 2361852424,
   2428436474, 2756734187, 3204031479, 3329325298]

/-- The initial SHA-256 hash state. -/
def shaInit : List Nat :=
  [1779033703, 3144134277, 1013904242, 2773480762, 1359893119,
   2600822924, 528734635, 1541459225]

/-- Big-endian 8-byte encoding of the bit length. -/
def lenBytes (n : Nat) : List Nat :=
  [(n >>> 56) % 256, (n >>> 48) % 256, (n >>> 40) % 256, (n >>> 32) % 256,
   (n >>> 24) % 256, (n >>> 16) % 256, (n >>> 8) % 256, n % 256]

/-- SHA-256 padding: append `0x80`, zeros to 56 mod 64, then the bit length. -/
def padBytes (m : List Nat) : List Nat :=
  let l := m.length
  m ++ [128] ++ List.replicate ((119 - l % 64) % 64) 0 ++ lenBytes (8 * l)

/-- Big-endian 32-bit word from the first four bytes. -/
def beWord : List Nat → Nat
  | a :: b :: c :: d :: _ => ((a * 256 + b) * 256 + c) * 256 + d
  | _ => 0

/-- The first `n` big-endian words of a byte list. -/
def blockWords : Nat → List Nat → List Nat
  | 0, _ => []
  | n + 1, bytes => beWord bytes :: blockWords n (bytes.drop 4)

/-- Extend 16 message words to the 64-entry message schedule. -/
def extendW (ws : Array Nat) : Array Nat :=
  (List.range 48).foldl
    (fun a _ =>
      let t := a.size
      a.push (w32 (ssig1 (a.getD (t - 2) 0) + a.getD (t - 7) 0 +
                   ssig0 (a.getD (t - 15) 0) + a.getD (t - 16) 0)))
    ws

/-- One SHA-256 round on the eight-word working state. -/
def roundFn (w k : Nat) : List Nat → List Nat
  | [a, b, c, d, e, f, g, h] =>
    let t1 := w32 (h + bsig1 e + ch32 e f g + k + w)
    let t2 := w32 (bsig0 a + maj32 a b c)
    [w32 (t1 + t2), a, b, c, w32 (d + t1), e, f, g]
  | s => s

/-- Compress one 64-byte block into the hash state. -/
def compress (hs block : List Nat) : List Nat :=
  let ws := extendW (blockWords 16 block).toArray
  let fin := (shaK.zip ws.toList).foldl (fun s p => roundFn p.2 p.1 s) hs
  (hs.zip fin).map (fun p => w32 (p.1 + p.2))

/-- Fold `compress` over all 64-byte blocks (fuel = block count). -/
def sha256Blocks : Nat → List Nat → List Nat → List Nat
  | 0, hs, _ => hs
  | n + 1, hs, bytes =>
    match bytes with
    | [] => hs
    | _ => sha256Blocks n (compress hs (bytes.take 64)) (bytes.drop 64)

/-- Big-endian bytes of a 32-bit word. -/
def wordBytes (w : Nat) : List Nat :=
  [(w >>> 24) % 256, (w >>> 16) % 256, (w >>> 8) % 256, w % 256]

/-- SHA-256 digest (32 bytes) of a byte list; Go `sha256.Sum256`. -/
def sha256 (m : List Nat) : List Nat :=
  let padded := padBytes m
  ((sha256Blocks (padded.length / 64) shaInit padded).map wordBytes).flatten

/-- Lowercase hex digit. -/
def hexDigit (n : Nat) : Char := if n < 10 then Char.ofNat (48 + n) else Char.ofNat (87 + n)

/-- Lowercase hex string of a byte list; Go `hex.EncodeToString`. -/
def hexStr (bytes : List Nat) : String :=
  String.mk ((bytes.map (fun b => [hexDigit (b / 16), hexDigit (b % 16)])).flatten)

/-- UTF-8 encoding of one character. -/
def utf8Encode (c : Char) : List Nat :=
  let n := c.toNat
  if n < 128 then [n]
  else if n < 2048 then [192 + n / 64, 128 + n % 64]
  else if n < 65536 then [224 + n / 4096, 128 + (n / 64) % 64, 128 + n % 64]
  else [240 + n / 262144, 128 + (n / 4096) % 64, 128 + (n / 64) % 64, 128 + n % 64]

/-- The bytes of a Go string conversion to a byte slice (UTF-8). -/
def strBytes (s : String) : List Nat := (s.data.map utf8Encode).flatten

/-- Go `strings.HasPrefix`. -/
def hasPfx (s pre : String) : Bool := pre.data.isPrefixOf s.data

/-- Go `strings.Repeat s count`; panics (modeled as `Except.error`) when
`count` is negative. -/
def stringsRepeat (s : String) (count : Int) : Except Unit String :=
  if count < 0 then Except.error ()
  else Except.ok (String.join (List.replicate count.toNat s))

/-- The `count`-fold repetition of the string `"0"`. -/
def zeroPfx (n : Nat) : String := String.join (List.replicate n "0")

/-! ## Proof-of-work service (server part_004 lines 372-457, client part_003) -/

/-- A proof-of-work challenge issued by the server. -/
structure ProofOfWorkChallenge where
  Challenge : String
  Difficulty : Int
  Timestamp : Int
deriving DecidableEq

/-- A proof-of-work solution echoed by the client. -/
structure ProofOfWorkSolution where
  Challenge : String
  Nonce : String
  Timestamp : Int
  Difficulty : Int
deriving DecidableEq

/-- Server `VerifyProofOfWork`: reject if the challenge is older than 60
seconds (`time.Now().Unix() - timestamp > 60`), else hash `challenge + nonce`
with SHA-256 and test whether the hex digest has `difficulty` leading `"0"`
characters.  `strings.Repeat` panics on a negative count, hence the
`Except`.  Wall-clock time is the explicit `now` argument. -/
def VerifyProofOfWork (challenge nonce : String) (difficulty timestamp now : Int) :
    Except Unit Bool :=
  if now - timestamp > 60 then Except.ok false
  else
    let hashStr := hexStr (sha256 (strBytes (challenge ++ nonce)))
    match stringsRepeat "0" difficulty with
    | Except.error e => Except.error e
    | Except.ok pfx => Except.ok (hasPfx hashStr pfx)

/-- Server `GetDynamicDifficulty`: a step function of the submission count. -/
def GetDynamicDifficulty (count : Int) : Int :=
  if count > 100 then 6
  else if count > 50 then 5
  else 4

/-- The client brute-force search of `solveProofOfWork`, starting at nonce
`i` with `fuel` remaining iterations (the Go loop is unbounded; `none`
models not yet having found a nonce). -/
def solveLoop (pfx challenge : String) : Nat → Nat → Option String
  | 0, _ => none
  | fuel + 1, i =>
    if hasPfx (hexStr (sha256 (strBytes (challenge ++ toString i)))) pfx then
      some (toString i)
    else solveLoop pfx challenge fuel (i + 1)

/-- Client `solveProofOfWork` (part_003 lines 144-153): repeat `"0"`
`Difficulty` times (panicking on a negative difficulty) and try successive
decimal nonces `0, 1, 2, ...` until the SHA-256 hex digest of
`challenge + nonce` has that prefix. -/
def solveProofOfWork (fuel : Nat) (c : ProofOfWorkChallenge) : Except Unit (Option String) :=
  match stringsRepeat "0" c.Difficulty with
  | Except.error e => Except.error e
  | Except.ok pfx => Except.ok (solveLoop pfx c.Challenge fuel 0)

/-! ## Per-source rate limiter (server part_004 lines 288-304) -/

/-- Association-list lookup (Go map read; `none` = key absent). -/
def lookupA {β : Type} : List (String × β) → String → Option β
  | [], _ => none
  | (k', v) :: t, k => if k' = k then some v else lookupA t k

/-- Association-list update (Go map write). -/
def setA {β : Type} : List (String × β) → String → β → List (String × β)
  | [], k, v => [(k, v)]
  | (k', v') :: t, k, v => if k' = k then (k, v) :: t else (k', v') :: setA t k v

/-- The two global maps `ipRequests` and `ipLastRequest`; times are in
nanoseconds, as `time.Time` differences are. -/
structure IPState where
  ipRequests : List (String × Int)
  ipLastRequest : List (String × Int)
deriving DecidableEq

/-- `requestLimit = 1`. -/
def requestLimit : Int := 1

/-- `timeWindow = 1 * time.Second`, in nanoseconds. -/
def timeWindow : Int := 1000000000

/-- Server `checkIP`: if the key exists in `ipLastRequest` and more than the
window has elapsed, reset its counter to zero; then increment the counter,
record `now`, and admit iff the incremented count is at most the limit. -/
def checkIP (st : IPState) (ip : String) (now : Int) : Bool × IPState :=
  let r0 :=
    match lookupA st.ipLastRequest ip with
    | some lastRequest =>
      if now - lastRequest > timeWindow then 0 else (lookupA st.ipRequests ip).getD 0
    | none => (lookupA st.ipRequests ip).getD 0
  let r := r0 + 1
  (decide (r ≤ requestLimit), ⟨setA st.ipRequests ip r, setA st.ipLastRequest ip now⟩)

/-! ## Data model (server part_004 lines 44-114) -/

structure SysInfo where
  OS : String
  Arch : String
  Version : String
  Kernel : String
  CPU : String
  CPUName : String
  Memory : String
deriving DecidableEq

structure GPUInfo where
  Name : String
  Vendor : String
  Memory : String
  DriverVersion : String
  Count : Int
deriving DecidableEq

/-- A benchmark submission.  Go `float64` fields are modeled as rationals;
the `SysInfo`/`GPUInfo` pointers as `Option` (dereferencing `none`
panics). -/
structure BenchmarkResult where
  ModelName : String
  Timestamp : Int
  Duration : Rat
  TokensPerSecond : Rat
  EvalCount : Int
  EvalDuration : Int
  Iterations : Int
  SysInfo : Option SysInfo
  GPUInfo : Option GPUInfo
  OllamaVersion : String
  ClientType : String
  ClientVersion : String
  SubmissionID : String
  IP : String
  ProofOfWork : ProofOfWorkSolution
deriving DecidableEq

structure ModelInfo where
  Name : String
  Parameters : String
  Quantization : String
deriving DecidableEq

/-- The supported model catalog. -/
def MODELS : List ModelInfo :=
  [⟨"llama3", "8B", "Q4_0"⟩,
   ⟨"phi3", "3B", "Q4_K_M"⟩,
   ⟨"phi3:14b", "14B", "Q4_0"⟩,
   ⟨"aya", "8B", "Q4_0"⟩,
   ⟨"aya:35b", "35B", "Q4_0"⟩,
   ⟨"gemma", "7B", "Q4_0"⟩,
   ⟨"gemma:2b", "2B", "Q4_0"⟩,
   ⟨"falcon2", "11B", "Q4_0"⟩,
   ⟨"mistral", "7B", "Q4_0"⟩,
   ⟨"mixtral:8x22b", "176B", "Q4_0"⟩,
   ⟨"mixtral:8x7b", "56B", "Q4_0"⟩,
   ⟨"command-r", "35B", "Q4_0"⟩,
   ⟨"command-r-plus", "104B", "Q4_0"⟩,
   ⟨"dolphin-llama3", "8B", "Q4_0"⟩,
   ⟨"dolphin-llama3:70b", "70B", "Q4_0"⟩,
   ⟨"dolphin-mixtral:8x22b", "176B", "Q4_0"⟩,
   ⟨"dolphin-mixtral:8x7b", "56B", "Q4_0"⟩,
   ⟨"llama3-chatqa", "8B", "Q4_0"⟩,
   ⟨"llama3:70b", "70B", "Q4_0"⟩,
   ⟨"llama3-gradient:8b", "8B", "Q4_0"⟩,
   ⟨"llama3-gradient:70b", "70B", "Q4_0"⟩,
   ⟨"qwen", "7B", "Q4_0"⟩,
   ⟨"qwen2", "7B", "Q4_0"⟩,
   ⟨"qwen2:0.5b", "0.5B", "Q4_0"⟩,
   ⟨"qwen2:1.5b", "1.5B", "Q4_0"⟩,
   ⟨"llama2", "7B", "Q4_0"⟩]

/-- Server `contains`: linear scan of the model catalog by name. -/
def contains : List ModelInfo → String → Bool
  | [], _ => false
  | m :: t, modelName => if m.Name = modelName then true else contains t modelName

/-! ## Durable store (MongoDB `benchmarks` collection as a record list) -/

/-- Number of stored records whose `submissionid` equals `id`
(`CountDocuments` with that filter). -/
def countId (db : List BenchmarkResult) (id : String) : Nat :=
  (db.filter (fun b => b.SubmissionID == id)).length

/-- Server `checkSubmissionID`: count the stored records with this
submission identifier and report fresh iff the count is zero; `fail` models
the store returning an error. -/
def checkSubmissionID (fail : Bool) (db : List BenchmarkResult) (submissionID : String) :
    Except Unit Bool :=
  if fail then Except.error () else Except.ok (countId db submissionID == 0)

/-! ## Auth middleware (server part_004 lines 211-277) -/

/-- A JSON claim value; the middleware only distinguishes strings. -/
inductive JsonVal
  | str (s : String)
  | other
deriving DecidableEq

/-- The authentication-relevant attributes of one request's bearer token.
The boolean fields are the observable outcomes of the external jwt-go
checks on the raw token string. -/
structure AuthRequest where
  authHeader : String
  tokenParseOk : Bool
  tokenAlgHMAC : Bool
  tokenSigValid : Bool
  tokenExpired : Bool
  tokenClaims : List (String × JsonVal)
deriving DecidableEq

/-- Server `validateJWT`.  Modelled from the spec: the body of jwt-go's
`jwt.Parse` (an external library, not in this repository) is represented by
its documented outcome — an error for a malformed token, a non-HMAC signing
method (the key function rejects it), an invalid signature, or an expired
token; otherwise the token's claims map. -/
def validateJWT (r : AuthRequest) : Except String (List (String × JsonVal)) :=
  if r.tokenParseOk = false then Except.error "token is malformed"
  else if r.tokenAlgHMAC = false then Except.error "unexpected signing method"
  else if r.tokenSigValid = false then Except.error "signature is invalid"
  else if r.tokenExpired = true then Except.error "token is expired"
  else Except.ok r.tokenClaims

/-- Store-related outcomes inside the middleware: `connectDB` success and
whether the nonce uniqueness count errors. -/
structure AuthEnv where
  connectOk : Bool
  checkFail : Bool
deriving DecidableEq

/-- Outcome of `authMiddleware` for one request.  `checkFailed` and
`replayDetected` write a response but do not call `c.Abort()`, so gin still
runs the route handler afterwards; `noncePanic` is the unchecked
`claims["nonce"].(string)` type assertion failing at runtime. -/
inductive AuthOutcome
  | missingHeader
  | invalidToken (msg : String)
  | connectFailed
  | noncePanic
  | checkFailed
  | replayDetected
  | proceed (claims : List (String × JsonVal))
deriving DecidableEq

/-- Server `authMiddleware`: require an Authorization header, validate the
token, connect to the store, assert `claims["nonce"].(string)`, and check
that the nonce was never used as a submission identifier. -/
def authMiddleware (db : List BenchmarkResult) (r : AuthRequest) (env : AuthEnv) :
    AuthOutcome :=
  if r.authHeader = "" then AuthOutcome.missingHeader
  else
    match validateJWT r with
    | Except.error msg => AuthOutcome.invalidToken msg
    | Except.ok claims =>
      if env.connectOk = false then AuthOutcome.connectFailed
      else
        match lookupA claims "nonce" with
        | some (JsonVal.str nonce) =>
          match checkSubmissionID env.checkFail db nonce with
          | Except.error _ => AuthOutcome.checkFailed
          | Except.ok isUnique =>
            if isUnique = false then AuthOutcome.replayDetected
            else AuthOutcome.proceed claims
        | _ => AuthOutcome.noncePanic

/-! ## The POST /api/submit-benchmark handler (server part_004 lines 575-678) -/

/-- Mutable server state threaded through a request: the store, the
per-source limiter maps, and the load counter. -/
structure ServerState where
  db : List BenchmarkResult
  ipSt : IPState
  subCount : Int
deriving DecidableEq

/-- Outcomes of the external or fallible steps of one submit request, in
the order the handler performs them.  `aesPlain`/`benchParse` are the
results of the authenticated decryption and of `json.Unmarshal` on its
plaintext. -/
structure SubmitOracle where
  bodyReadOk : Bool
  submissionID : String
  sigValid : Bool
  checkFail : Bool
  payloadParseOk : Bool
  rsaOk : Bool
  aesPlain : Option (List Nat)
  benchParse : Option BenchmarkResult
  insertFail : Bool
  now : Int
deriving DecidableEq

/-- Operations a request performs, in order of occurrence. -/
inductive Event
  | globalRate
  | auth
  | replayCheck (id : String)
  | decryptKey
  | decryptData
  | powCheck (d : Int)
  | sourceCheck (ip : String)
  | insertDb (id : String)
deriving DecidableEq

/-- What the handler wrote to the HTTP response.  `noResponse` is a handler
return without any write (gin then sends an empty 200); `panicked` is a
runtime panic (gin's recovery middleware turns it into a 500). -/
inductive HResp
  | badRequest (msg : String)
  | unauthorized (msg : String)
  | serverError (msg : String)
  | rateLimited
  | ok (msg : String)
  | noResponse
  | panicked
deriving DecidableEq

/-- HTTP status actually seen on the wire for each handler outcome. -/
def wireStatus : HResp → Nat
  | HResp.badRequest _ => 400
  | HResp.unauthorized _ => 401
  | HResp.serverError _ => 500
  | HResp.rateLimited => 429
  | HResp.ok _ => 200
  | HResp.noResponse => 200
  | HResp.panicked => 500

/-- Source lines 663-677 of the handler: the two log statements dereference
the `SysInfo` and `GPUInfo` pointers (a nil pointer panics), the record is
stored under the header submission identifier, and the load counter is
incremented on success; an insertion error is only logged and the handler
returns without writing any response. -/
def logAndInsert (st : ServerState) (o : SubmitOracle) (bench : BenchmarkResult) :
    HResp × ServerState × List Event :=
  match bench.SysInfo, bench.GPUInfo with
  | some _, some _ =>
    if o.insertFail = true then (HResp.noResponse, st, [Event.insertDb o.submissionID])
    else
      let stored : BenchmarkResult := { bench with SubmissionID := o.submissionID }
      (HResp.ok "Benchmark submitted successfully",
       { st with db := st.db ++ [stored], subCount := st.subCount + 1 },
       [Event.insertDb o.submissionID])
  | _, _ => (HResp.panicked, st, [])

/-- Source lines 657-661: the per-source rate limit keyed by the payload's
own `IP` field; `checkIP` mutates the limiter maps even when it rejects. -/
def ipStage (st : ServerState) (o : SubmitOracle) (bench : BenchmarkResult) :
    HResp × ServerState × List Event :=
  let st1 : ServerState := { st with ipSt := (checkIP st.ipSt bench.IP o.now).2 }
  if (checkIP st.ipSt bench.IP o.now).1 = false then
    (HResp.unauthorized "IP address is rate limited", st1, [Event.sourceCheck bench.IP])
  else
    ((logAndInsert st1 o bench).1, (logAndInsert st1 o bench).2.1,
     Event.sourceCheck bench.IP :: (logAndInsert st1 o bench).2.2)

/-- Source lines 651-655: proof-of-work verification on the fields echoed
inside the decrypted payload. -/
def powStage (st : ServerState) (o : SubmitOracle) (bench : BenchmarkResult) :
    HResp × ServerState × List Event :=
  match VerifyProofOfWork bench.ProofOfWork.Challenge bench.ProofOfWork.Nonce
      bench.ProofOfWork.Difficulty bench.ProofOfWork.Timestamp o.now with
  | Except.error _ => (HResp.panicked, st, [Event.powCheck bench.ProofOfWork.Difficulty])
  | Except.ok powOk =>
    if powOk = false then
      (HResp.unauthorized "Invalid proof-of-work solution", st,
       [Event.powCheck bench.ProofOfWork.Difficulty])
    else
      ((ipStage st o bench).1, (ipStage st o bench).2.1,
       Event.powCheck bench.ProofOfWork.Difficulty :: (ipStage st o bench).2.2)

/-- Source lines 639-649: metric positivity and model-catalog validation of
the parsed benchmark. -/
def benchStage (st : ServerState) (o : SubmitOracle) (bench : BenchmarkResult) :
    HResp × ServerState × List Event :=
  if bench.EvalCount ≤ 0 ∨ bench.TokensPerSecond ≤ 0 then
    (HResp.badRequest "Invalid benchmark metrics", st, [])
  else if contains MODELS bench.ModelName = false then
    (HResp.badRequest "Invalid model name", st, [])
  else powStage st o bench

/-- Source lines 612-637: RSA key unwrap, AES-GCM decrypt, and
`json.Unmarshal` of the plaintext into a `BenchmarkResult`. -/
def decryptStage (st : ServerState) (o : SubmitOracle) : HResp × ServerState × List Event :=
  if o.rsaOk = false then
    (HResp.unauthorized "Decryption failed", st, [Event.decryptKey])
  else
    match o.aesPlain with
    | none => (HResp.unauthorized "Decryption failed", st, [Event.decryptKey, Event.decryptData])
    | some _ =>
      match o.benchParse with
      | none =>
        (HResp.badRequest "Invalid benchmark data", st, [Event.decryptKey, Event.decryptData])
      | some bench =>
        ((benchStage st o bench).1, (benchStage st o bench).2.1,
         Event.decryptKey :: Event.decryptData :: (benchStage st o bench).2.2)

/-- The submit-benchmark route handler (source lines 575-678), composed of
the stages above in source order: body read, HMAC signature over the
`X-Submission-ID` header, replay check against the store, envelope parse,
then decryption, validation, proof of work, per-source limiting and
insertion.  Returns the response, the new state, and the performed
operations. -/
def submitHandler (st : ServerState) (o : SubmitOracle) :
    HResp × ServerState × List Event :=
  if o.bodyReadOk = false then (HResp.badRequest "Invalid request payload", st, [])
  else if o.sigValid = false then (HResp.unauthorized "Invalid signature", st, [])
  else
    match checkSubmissionID o.checkFail st.db o.submissionID with
    | Except.error _ =>
      (HResp.serverError "Failed to check submission", st, [Event.replayCheck o.submissionID])
    | Except.ok isUnique =>
      if isUnique = false then
        (HResp.unauthorized "Not a unique submission", st, [Event.replayCheck o.submissionID])
      else if o.payloadParseOk = false then
        (HResp.badRequest "Invalid payload format", st, [Event.replayCheck o.submissionID])
      else
        ((decryptStage st o).1, (decryptStage st o).2.1,
         Event.replayCheck o.submissionID :: (decryptStage st o).2.2)

/-- The whole route: the tollbooth global limiter middleware runs first and
aborts over-limit requests; then `authMiddleware`; then the handler.  The
middleware's `checkFailed`/`replayDetected` paths respond without aborting,
so the handler still runs but its response writes are dropped (the first
written response stands). -/
def submitRoute (overLimit : Bool) (ar : AuthRequest) (aenv : AuthEnv) (o : SubmitOracle)
    (st : ServerState) : HResp × ServerState × List Event :=
  if overLimit = true then (HResp.rateLimited, st, [Event.globalRate])
  else
    match authMiddleware st.db ar aenv with
    | AuthOutcome.missingHeader =>
      (HResp.unauthorized "Missing Authorization header", st, [Event.globalRate, Event.auth])
    | AuthOutcome.invalidToken msg =>
      (HResp.unauthorized msg, st, [Event.globalRate, Event.auth])
    | AuthOutcome.connectFailed =>
      (HResp.serverError "Failed to connect to database", st, [Event.globalRate, Event.auth])
    | AuthOutcome.noncePanic => (HResp.panicked, st, [Event.globalRate, Event.auth])
    | AuthOutcome.checkFailed =>
      (HResp.serverError "Failed to check submission", (submitHandler st o).2.1,
       Event.globalRate :: Event.auth :: (submitHandler st o).2.2)
    | AuthOutcome.replayDetected =>
      (HResp.unauthorized "Replay attack detected", (submitHandler st o).2.1,
       Event.globalRate :: Event.auth :: (submitHandler st o).2.2)
    | AuthOutcome.proceed _ =>
      ((submitHandler st o).1, (submitHandler st o).2.1,
       Event.globalRate :: Event.auth :: (submitHandler st o).2.2)

/-! ## Concrete sample inputs used by witnesses -/

def wSys : SysInfo := ⟨"linux", "amd64", "1.0", "6.1", "x86", "TestCPU", "16GB"⟩

def wGpu : GPUInfo := ⟨"TestGPU", "vendor", "8GB", "550", 1⟩

/-- A benchmark payload that passes every validation: known model, positive
metrics, difficulty-0 proof of work at timestamp 0. -/
def wBench : BenchmarkResult :=
  { ModelName := "llama3", Timestamp := 0, Duration := 1, TokensPerSecond := 42,
    EvalCount := 10, EvalDuration := 1, Iterations := 1,
    SysInfo := some wSys, GPUInfo := some wGpu,
    OllamaVersion := "0.1.38", ClientType := "cli", ClientVersion := "0.0.1",
    SubmissionID := "", IP := "1.2.3.4",
    ProofOfWork := ⟨"x", "y", 0, 0⟩ }

/-- A fully benign oracle for one submit request with identifier `sub-1`. -/
def wOracle1 : SubmitOracle :=
  { bodyReadOk := true, submissionID := "sub-1", sigValid := true, checkFail := false,
    payloadParseOk := true, rsaOk := true, aesPlain := some [1],
    benchParse := some wBench, insertFail := false, now := 0 }

/-- Same identifier as `wOracle1` but a different payload. -/
def wOracle2 : SubmitOracle := { wOracle1 with aesPlain := some [2] }

/-- `wOracle1` with the replay check erroring at the store. -/
def wOracleCheckFail : SubmitOracle := { wOracle1 with checkFail := true }

/-- `wOracle1` with the insertion erroring at the store. -/
def wOracleInsertFail : SubmitOracle := { wOracle1 with insertFail := true }

/-- The empty server state. -/
def wState0 : ServerState := ⟨[], ⟨[], []⟩, 0⟩

/-- A validly signed, unexpired token whose `nonce` claim is not a string. -/
def wAuthReqBadNonce : AuthRequest :=
  { authHeader := "Bearer t", tokenParseOk := true, tokenAlgHMAC := true,
    tokenSigValid := true, tokenExpired := false,
    tokenClaims := [("nonce", JsonVal.other)] }

/-- A fully valid token whose nonce claim is the fresh string `"sub-1"`. -/
def wAuthReqGood : AuthRequest :=
  { wAuthReqBadNonce with tokenClaims := [("nonce", JsonVal.str "sub-1")] }

/-- A healthy middleware store environment. -/
def wAuthEnv : AuthEnv := ⟨true, false⟩

/-! ## Helper lemmas -/

theorem hasPfx_empty (s : String) : hasPfx s "" = true := by
  obtain ⟨l⟩ := s
  cases l <;> rfl

theorem zeroPfx_zero : zeroPfx 0 = "" := rfl

theorem stringsRepeat_nonneg (s : String) (d : Int) (h : 0 ≤ d) :
    stringsRepeat s d = Except.ok (String.join (List.replicate d.toNat s)) := by
  unfold stringsRepeat
  rw [if_neg (by omega)]

theorem stringsRepeat_neg (s : String) (d : Int) (h : d < 0) :
    stringsRepeat s d = Except.error () := by
  unfold stringsRepeat
  rw [if_pos h]

theorem solveLoop_sound (pfx challenge : String) :
    ∀ fuel i n, solveLoop pfx challenge fuel i = some n →
      hasPfx (hexStr (sha256 (strBytes (challenge ++ n)))) pfx = true := by
  intro fuel
  induction fuel with
  | zero => intro i n h; exact absurd h (by simp [solveLoop])
  | succ k ih =>
    intro i n h
    unfold solveLoop at h
    split at h
    · rename_i hcond
      injection h with h'
      subst h'
      exact hcond
    · exact ih _ _ h

/-! ## Claim theorems -/

/-- Claim C2: within the validity window and for a well-formed (nonnegative)
difficulty, `VerifyProofOfWork` returns true exactly when the hex digest of
SHA-256 of `challenge ++ nonce` carries `difficulty` leading zero
characters; consequently every nonce found by the client solver
`solveProofOfWork` is accepted, and any nonce whose digest lacks the prefix
is rejected. -/
theorem pow_verify_solver_correct (c : ProofOfWorkChallenge) (nonce : String)
    (now : Int) (fuel : Nat) (hts : now - c.Timestamp ≤ 60) :
    (0 ≤ c.Difficulty →
      (VerifyProofOfWork c.Challenge nonce c.Difficulty c.Timestamp now = Except.ok true ↔
        hasPfx (hexStr (sha256 (strBytes (c.Challenge ++ nonce))))
          (zeroPfx c.Difficulty.toNat) = true))
    ∧ (∀ n, solveProofOfWork fuel c = Except.ok (some n) →
        VerifyProofOfWork c.Challenge n c.Difficulty c.Timestamp now = Except.ok true) := by
  have hnot : ¬ now - c.Timestamp > 60 := by omega
  constructor
  · intro hd
    unfold VerifyProofOfWork
    rw [if_neg hnot]
    simp only [stringsRepeat_nonneg "0" c.Difficulty hd]
    simp [zeroPfx]
  · intro n hsol
    unfold solveProofOfWork at hsol
    cases hrep : stringsRepeat "0" c.Difficulty with
    | error e => rw [hrep] at hsol; exact absurd hsol (by simp)
    | ok pfx =>
      rw [hrep] at hsol
      have hloop : solveLoop pfx c.Challenge fuel 0 = some n := by
        simpa using hsol
      have hpfx := solveLoop_sound pfx c.Challenge fuel 0 n hloop
      unfold VerifyProofOfWork
      rw [if_neg hnot]
      simp only [hrep]
      simp [hpfx]

/-- Witness for C2 at a concrete challenge: fuel 1 already solves a
difficulty-0 challenge with nonce `"0"`, and the verifier accepts it. -/
theorem pow_verify_solver_correct_witness :
    (0 : Int) - 0 ≤ 60 ∧ VerifyProofOfWork "" "0" 0 0 0 = Except.ok true :=
  ⟨by norm_num,
   (pow_verify_solver_correct ⟨"", 0, 0⟩ "0" 0 1 (by norm_num)).2 "0" (by decide)⟩

/-- Counterexample to C3's future-dating clause: a challenge timestamped 100
seconds in the future of `now = 0` is accepted (with a difficulty-0 prefix),
because `now - timestamp` is negative and therefore not greater than 60. -/
theorem pow_future_timestamp_accepted :
    (0 : Int) < 100 ∧ VerifyProofOfWork "a" "b" 0 100 0 = Except.ok true := by
  exact ⟨by norm_num, by decide⟩

/-- Claim C3 (amended): a challenge staler than 60 seconds is always
rejected, whatever the nonce and difficulty; a future-dated timestamp,
however, passes the expiry test, and verification then succeeds whenever
the hash condition holds (e.g. at difficulty 0). -/
theorem pow_expiry_window_spec :
    (∀ (challenge nonce : String) (difficulty timestamp now : Int),
        now - timestamp > 60 →
        VerifyProofOfWork challenge nonce difficulty timestamp now = Except.ok false)
    ∧ (∀ (challenge nonce : String) (timestamp now : Int),
        now < timestamp →
        VerifyProofOfWork challenge nonce 0 timestamp now = Except.ok true) := by
  constructor
  · intro challenge nonce difficulty timestamp now h
    unfold VerifyProofOfWork
    rw [if_pos h]
  · intro challenge nonce timestamp now h
    unfold VerifyProofOfWork
    rw [if_neg (by omega)]
    simp only [stringsRepeat_nonneg "0" 0 (by norm_num)]
    simp [show String.join ([] : List String) = "" from rfl, hasPfx_empty]

/-- Witness for the amended C3: a 100-second-old challenge is rejected and a
100-second-future challenge is accepted. -/
theorem pow_expiry_window_spec_witness :
    VerifyProofOfWork "a" "b" 5 0 100 = Except.ok false ∧
    VerifyProofOfWork "a" "b" 0 100 0 = Except.ok true :=
  ⟨pow_expiry_window_spec.1 "a" "b" 5 0 100 (by norm_num),
   pow_expiry_window_spec.2 "a" "b" 100 0 (by norm_num)⟩

/-- Claim C4: the difficulty schedule is the step function of the load
counter with thresholds at 100 and 50, both boundaries resolving to the
lower tier. -/
theorem dynamic_difficulty_schedule :
    (∀ c : Int,
       (100 < c → GetDynamicDifficulty c = 6)
       ∧ (50 < c ∧ c ≤ 100 → GetDynamicDifficulty c = 5)
       ∧ (c ≤ 50 → GetDynamicDifficulty c = 4))
    ∧ GetDynamicDifficulty 50 = 4 ∧ GetDynamicDifficulty 100 = 5 := by
  refine ⟨fun c => ⟨?_, ?_, ?_⟩, by decide, by decide⟩ <;>
    · intro h
      unfold GetDynamicDifficulty
      split_ifs <;> omega

/-- Witness for C4 at the tier boundaries and interiors. -/
theorem dynamic_difficulty_schedule_witness :
    GetDynamicDifficulty 101 = 6 ∧ GetDynamicDifficulty 100 = 5 ∧
    GetDynamicDifficulty 51 = 5 ∧ GetDynamicDifficulty 50 = 4 :=
  ⟨(dynamic_difficulty_schedule.1 101).1 (by norm_num),
   dynamic_difficulty_schedule.2.2,
   (dynamic_difficulty_schedule.1 51).2.1 ⟨by norm_num, by norm_num⟩,
   dynamic_difficulty_schedule.2.1⟩

theorem lookupA_setA_self {β : Type} (l : List (String × β)) (k : String) (v : β) :
    lookupA (setA l k v) k = some v := by
  induction l with
  | nil => simp [setA, lookupA]
  | cons p t ih =>
    obtain ⟨k', v'⟩ := p
    unfold setA
    split
    · simp [lookupA]
    · rename_i hne
      unfold lookupA
      rw [if_neg hne]
      exact ih

/-- Claim C6: per-source limiter semantics of `checkIP` — when the elapsed
time since the key's last request exceeds the window the counter restarts
at zero before the increment; a request is admitted exactly when the
incremented counter is at most the limit; with the 1-per-second
configuration, two requests 100ms apart have the second rejected, and two
requests 1.1s apart are both admitted. -/
theorem checkIP_rate_limit_spec :
    (∀ (st : IPState) (ip : String) (now lastRequest : Int),
        lookupA st.ipLastRequest ip = some lastRequest →
        now - lastRequest > timeWindow →
        lookupA (checkIP st ip now).2.ipRequests ip = some 1
          ∧ (checkIP st ip now).1 = true)
    ∧ (∀ (st : IPState) (ip : String) (now : Int),
        ∃ r, lookupA (checkIP st ip now).2.ipRequests ip = some r
          ∧ ((checkIP st ip now).1 = true ↔ r ≤ requestLimit))
    ∧ ((checkIP ⟨[], []⟩ "src" 0).1 = true
       ∧ (checkIP (checkIP ⟨[], []⟩ "src" 0).2 "src" 100000000).1 = false
       ∧ (checkIP (checkIP ⟨[], []⟩ "src" 0).2 "src" 1100000000).1 = true) := by
  refine ⟨?_, ?_, by decide, by decide, by decide⟩
  · intro st ip now lastRequest hl hw
    unfold checkIP
    simp only [hl]
    rw [if_pos hw]
    refine ⟨?_, ?_⟩
    · rw [lookupA_setA_self]
      norm_num
    · simp [requestLimit]
  · intro st ip now
    refine ⟨_, lookupA_setA_self st.ipRequests ip _, ?_⟩
    simp only [checkIP]
    exact decide_eq_true_iff

/-- Witness for C6: a source last seen 2 seconds ago with a stale count of 5
has its counter reset to 1 and is admitted. -/
theorem checkIP_rate_limit_spec_witness :
    lookupA (checkIP ⟨[("a", 5)], [("a", 0)]⟩ "a" 2000000000).2.ipRequests "a" = some 1
    ∧ (checkIP ⟨[("a", 5)], [("a", 0)]⟩ "a" 2000000000).1 = true :=
  checkIP_rate_limit_spec.1 ⟨[("a", 5)], [("a", 0)]⟩ "a" 2000000000 0 (by decide) (by decide)

/-- Claim C10: with a validly signed, unexpired token whose claims carry no
string `nonce` entry, the middleware's unchecked type assertion panics at
runtime rather than answering 401; and an auth-error response
(missing-header or invalid-token 401) arises only from a missing header or
from jwt parsing failing on a malformed, non-HMAC, wrongly signed, or
expired token. -/
theorem auth_nonce_assertion :
    (∀ (db : List BenchmarkResult) (r : AuthRequest) (env : AuthEnv),
        r.authHeader ≠ "" →
        validateJWT r = Except.ok r.tokenClaims →
        env.connectOk = true →
        (∀ s, lookupA r.tokenClaims "nonce" ≠ some (JsonVal.str s)) →
        authMiddleware db r env = AuthOutcome.noncePanic)
    ∧ (∀ (db : List BenchmarkResult) (r : AuthRequest) (env : AuthEnv),
        (authMiddleware db r env = AuthOutcome.missingHeader
          ∨ ∃ msg, authMiddleware db r env = AuthOutcome.invalidToken msg) →
        r.authHeader = "" ∨ r.tokenParseOk = false ∨ r.tokenAlgHMAC = false
          ∨ r.tokenSigValid = false ∨ r.tokenExpired = true) := by
  constructor
  · intro db r env hh hv hc hn
    unfold authMiddleware
    rw [if_neg hh]
    simp only [hv, hc]
    cases hl : lookupA r.tokenClaims "nonce" with
    | none => simp
    | some jv =>
      cases jv with
      | str s => exact absurd hl (hn s)
      | other => simp
  · intro db r env hout
    by_cases hh : r.authHeader = ""
    · exact Or.inl hh
    right
    cases hp : r.tokenParseOk with
    | false => exact Or.inl rfl
    | true =>
      right
      cases ha : r.tokenAlgHMAC with
      | false => exact Or.inl rfl
      | true =>
        right
        cases hs : r.tokenSigValid with
        | false => exact Or.inl rfl
        | true =>
          right
          cases he : r.tokenExpired with
          | true => exact rfl
          | false =>
            exfalso
            have hv : validateJWT r = Except.ok r.tokenClaims := by
              unfold validateJWT
              rw [hp, ha, hs, he]
              simp
            unfold authMiddleware at hout
            rw [if_neg hh] at hout
            simp only [hv] at hout
            rcases hout with h | ⟨m, h⟩ <;>
              (by_cases hc2 : env.connectOk = false
               · rw [if_pos hc2] at h
                 simp at h
               · rw [if_neg hc2] at h
                 rcases hlv : lookupA r.tokenClaims "nonce" with _ | jv <;> rw [hlv] at h
                 · simp at h
                 · cases jv with
                   | str s =>
                     dsimp only at h
                     rcases hcs : checkSubmissionID env.checkFail db s with e | u <;>
                       rw [hcs] at h
                     · simp at h
                     · cases u <;> simp at h
                   | other => simp at h)

/-- Witness for C10: a concrete valid token whose `nonce` claim is a
non-string JSON value makes the middleware panic. -/
theorem auth_nonce_assertion_witness :
    authMiddleware [] wAuthReqBadNonce wAuthEnv = AuthOutcome.noncePanic :=
  auth_nonce_assertion.1 [] wAuthReqBadNonce wAuthEnv (by decide) (by decide) (by decide)
    (fun s h => by simp [wAuthReqBadNonce, lookupA] at h)

/-! ## Stage lemmas about the submit handler -/

theorem logAndInsert_events (st : ServerState) (o : SubmitOracle) (bench : BenchmarkResult) :
    ∀ e ∈ (logAndInsert st o bench).2.2, e = Event.insertDb o.submissionID := by
  intro e he
  unfold logAndInsert at he
  split at he
  · split at he <;> simpa using he
  · simp at he

theorem logAndInsert_db (st : ServerState) (o : SubmitOracle) (bench : BenchmarkResult) :
    ((logAndInsert st o bench).2.1.db = st.db
      ∧ ∀ m, (logAndInsert st o bench).1 ≠ HResp.ok m)
    ∨ ((logAndInsert st o bench).2.1.db
         = st.db ++ [{ bench with SubmissionID := o.submissionID }]
       ∧ (logAndInsert st o bench).1 = HResp.ok "Benchmark submitted successfully") := by
  unfold logAndInsert
  split
  · split
    · exact Or.inl ⟨rfl, by simp⟩
    · exact Or.inr ⟨rfl, rfl⟩
  · exact Or.inl ⟨rfl, by simp⟩

theorem ipStage_events (st : ServerState) (o : SubmitOracle) (bench : BenchmarkResult) :
    ∃ tail, (ipStage st o bench).2.2 = Event.sourceCheck bench.IP :: tail
      ∧ ∀ e ∈ tail, e = Event.insertDb o.submissionID := by
  unfold ipStage
  split
  · exact ⟨[], rfl, by simp⟩
  · exact ⟨(logAndInsert _ o bench).2.2, rfl, logAndInsert_events _ o bench⟩

theorem ipStage_db (st : ServerState) (o : SubmitOracle) (bench : BenchmarkResult) :
    ((ipStage st o bench).2.1.db = st.db
      ∧ ∀ m, (ipStage st o bench).1 ≠ HResp.ok m)
    ∨ ((ipStage st o bench).2.1.db
         = st.db ++ [{ bench with SubmissionID := o.submissionID }]
       ∧ (ipStage st o bench).1 = HResp.ok "Benchmark submitted successfully") := by
  unfold ipStage
  split
  · exact Or.inl ⟨rfl, by simp⟩
  · exact logAndInsert_db _ o bench

theorem powStage_db (st : ServerState) (o : SubmitOracle) (bench : BenchmarkResult) :
    ((powStage st o bench).2.1.db = st.db
      ∧ ∀ m, (powStage st o bench).1 ≠ HResp.ok m)
    ∨ ((powStage st o bench).2.1.db
         = st.db ++ [{ bench with SubmissionID := o.submissionID }]
       ∧ (powStage st o bench).1 = HResp.ok "Benchmark submitted successfully") := by
  unfold powStage
  split
  · exact Or.inl ⟨rfl, by simp⟩
  · split
    · exact Or.inl ⟨rfl, by simp⟩
    · exact ipStage_db st o bench

theorem powStage_eq_ok (st : ServerState) (o : SubmitOracle) (bench : BenchmarkResult)
    (hv : VerifyProofOfWork bench.ProofOfWork.Challenge bench.ProofOfWork.Nonce
        bench.ProofOfWork.Difficulty bench.ProofOfWork.Timestamp o.now = Except.ok true) :
    powStage st o bench
      = ((ipStage st o bench).1, (ipStage st o bench).2.1,
         Event.powCheck bench.ProofOfWork.Difficulty :: (ipStage st o bench).2.2) := by
  unfold powStage
  simp [hv]

theorem decryptStage_eq (st : ServerState) (o : SubmitOracle) (bench : BenchmarkResult)
    (plain : List Nat) (hrsa : o.rsaOk = true) (haes : o.aesPlain = some plain)
    (hbp : o.benchParse = some bench) :
    decryptStage st o
      = ((benchStage st o bench).1, (benchStage st o bench).2.1,
         Event.decryptKey :: Event.decryptData :: (benchStage st o bench).2.2) := by
  unfold decryptStage
  simp [hrsa, haes, hbp]

theorem submitHandler_eq (st : ServerState) (o : SubmitOracle)
    (hbr : o.bodyReadOk = true) (hsv : o.sigValid = true)
    (hck : checkSubmissionID o.checkFail st.db o.submissionID = Except.ok true)
    (hpp : o.payloadParseOk = true) :
    submitHandler st o
      = ((decryptStage st o).1, (decryptStage st o).2.1,
         Event.replayCheck o.submissionID :: (decryptStage st o).2.2) := by
  unfold submitHandler
  simp [hbr, hsv, hck, hpp]

theorem powStage_source (st : ServerState) (o : SubmitOracle) (bench : BenchmarkResult)
    (ip : String) (h : Event.sourceCheck ip ∈ (powStage st o bench).2.2) :
    ip = bench.IP
    ∧ VerifyProofOfWork bench.ProofOfWork.Challenge bench.ProofOfWork.Nonce
        bench.ProofOfWork.Difficulty bench.ProofOfWork.Timestamp o.now = Except.ok true
    ∧ ∃ tail, (powStage st o bench).2.2
        = Event.powCheck bench.ProofOfWork.Difficulty :: Event.sourceCheck bench.IP :: tail := by
  cases hv : VerifyProofOfWork bench.ProofOfWork.Challenge bench.ProofOfWork.Nonce
      bench.ProofOfWork.Difficulty bench.ProofOfWork.Timestamp o.now with
  | error e =>
    have heq2 : powStage st o bench
        = (HResp.panicked, st, [Event.powCheck bench.ProofOfWork.Difficulty]) := by
      unfold powStage
      simp [hv]
    rw [heq2] at h
    simp at h
  | ok powOk =>
    cases powOk with
    | false =>
      have heq2 : powStage st o bench
          = (HResp.unauthorized "Invalid proof-of-work solution", st,
             [Event.powCheck bench.ProofOfWork.Difficulty]) := by
        unfold powStage
        simp [hv]
      rw [heq2] at h
      simp at h
    | true =>
      have heq2 := powStage_eq_ok st o bench hv
      rw [heq2] at h
      obtain ⟨tail, htl, hins⟩ := ipStage_events st o bench
      have h' : Event.sourceCheck ip
          ∈ Event.powCheck bench.ProofOfWork.Difficulty :: (ipStage st o bench).2.2 := h
      rw [htl] at h'
      have hip : ip = bench.IP := by
        rcases List.mem_cons.mp h' with h1 | h2
        · exact absurd h1 (by simp)
        · rcases List.mem_cons.mp h2 with h3 | h4
          · exact Event.sourceCheck.inj h3
          · exact absurd (hins _ h4) (by simp)
      refine ⟨hip, rfl, tail, ?_⟩
      rw [heq2]
      show Event.powCheck bench.ProofOfWork.Difficulty :: (ipStage st o bench).2.2 = _
      rw [htl]

theorem powStage_pow (st : ServerState) (o : SubmitOracle) (bench : BenchmarkResult)
    (d : Int) (h : Event.powCheck d ∈ (powStage st o bench).2.2) :
    d = bench.ProofOfWork.Difficulty := by
  unfold powStage at h
  cases hv : VerifyProofOfWork bench.ProofOfWork.Challenge bench.ProofOfWork.Nonce
      bench.ProofOfWork.Difficulty bench.ProofOfWork.Timestamp o.now with
  | error e =>
    rw [hv] at h
    simpa using h
  | ok powOk =>
    rw [hv] at h
    cases powOk with
    | false => simpa using h
    | true =>
      obtain ⟨tail, htl, hins⟩ := ipStage_events st o bench
      simp only at h
      rw [htl] at h
      rcases List.mem_cons.mp h with h1 | h2
      · exact Event.powCheck.inj h1
      · rcases List.mem_cons.mp h2 with h3 | h4
        · simp at h3
        · exact absurd (hins _ h4) (by simp)

theorem benchStage_db (st : ServerState) (o : SubmitOracle) (bench : BenchmarkResult) :
    ((benchStage st o bench).2.1.db = st.db
      ∧ ∀ m, (benchStage st o bench).1 ≠ HResp.ok m)
    ∨ ((benchStage st o bench).2.1.db
         = st.db ++ [{ bench with SubmissionID := o.submissionID }]
       ∧ (benchStage st o bench).1 = HResp.ok "Benchmark submitted successfully") := by
  unfold benchStage
  split
  · exact Or.inl ⟨rfl, by simp⟩
  · split
    · exact Or.inl ⟨rfl, by simp⟩
    · exact powStage_db st o bench

theorem benchStage_source (st : ServerState) (o : SubmitOracle) (bench : BenchmarkResult)
    (ip : String) (h : Event.sourceCheck ip ∈ (benchStage st o bench).2.2) :
    ip = bench.IP
    ∧ VerifyProofOfWork bench.ProofOfWork.Challenge bench.ProofOfWork.Nonce
        bench.ProofOfWork.Difficulty bench.ProofOfWork.Timestamp o.now = Except.ok true
    ∧ ∃ tail, (benchStage st o bench).2.2
        = Event.powCheck bench.ProofOfWork.Difficulty :: Event.sourceCheck bench.IP :: tail := by
  unfold benchStage at h ⊢
  split at h
  · simp at h
  · split at h
    · simp at h
    · rename_i h1 h2
      rw [if_neg h1, if_neg h2]
      exact powStage_source st o bench ip h

theorem benchStage_pow (st : ServerState) (o : SubmitOracle) (bench : BenchmarkResult)
    (d : Int) (h : Event.powCheck d ∈ (benchStage st o bench).2.2) :
    d = bench.ProofOfWork.Difficulty := by
  unfold benchStage at h
  split at h
  · simp at h
  · split at h
    · simp at h
    · exact powStage_pow st o bench d h

theorem decryptStage_db (st : ServerState) (o : SubmitOracle) :
    ((decryptStage st o).2.1.db = st.db
      ∧ ∀ m, (decryptStage st o).1 ≠ HResp.ok m)
    ∨ (∃ b, o.benchParse = some b
        ∧ (decryptStage st o).2.1.db = st.db ++ [{ b with SubmissionID := o.submissionID }]
        ∧ (decryptStage st o).1 = HResp.ok "Benchmark submitted successfully") := by
  unfold decryptStage
  split
  · exact Or.inl ⟨rfl, by simp⟩
  · split
    · exact Or.inl ⟨rfl, by simp⟩
    · split
      · exact Or.inl ⟨rfl, by simp⟩
      · rename_i bench heq
        rcases benchStage_db st o bench with ⟨h1, h2⟩ | ⟨h1, h2⟩
        · exact Or.inl ⟨h1, h2⟩
        · exact Or.inr ⟨bench, heq, h1, h2⟩

theorem decryptStage_source (st : ServerState) (o : SubmitOracle) (ip : String)
    (h : Event.sourceCheck ip ∈ (decryptStage st o).2.2) :
    ∃ b, o.benchParse = some b ∧ ip = b.IP
      ∧ VerifyProofOfWork b.ProofOfWork.Challenge b.ProofOfWork.Nonce
          b.ProofOfWork.Difficulty b.ProofOfWork.Timestamp o.now = Except.ok true
      ∧ ∃ tail, (decryptStage st o).2.2
          = Event.decryptKey :: Event.decryptData
            :: Event.powCheck b.ProofOfWork.Difficulty
            :: Event.sourceCheck b.IP :: tail := by
  by_cases hrsa : o.rsaOk = false
  · have heq2 : decryptStage st o
        = (HResp.unauthorized "Decryption failed", st, [Event.decryptKey]) := by
      unfold decryptStage
      simp [hrsa]
    rw [heq2] at h
    simp at h
  · rw [Bool.not_eq_false] at hrsa
    cases haes : o.aesPlain with
    | none =>
      have heq2 : decryptStage st o
          = (HResp.unauthorized "Decryption failed", st,
             [Event.decryptKey, Event.decryptData]) := by
        unfold decryptStage
        simp [hrsa, haes]
      rw [heq2] at h
      simp at h
    | some plain =>
      cases hbp : o.benchParse with
      | none =>
        have heq2 : decryptStage st o
            = (HResp.badRequest "Invalid benchmark data", st,
               [Event.decryptKey, Event.decryptData]) := by
          unfold decryptStage
          simp [hrsa, haes, hbp]
        rw [heq2] at h
        simp at h
      | some bench =>
        have heq2 := decryptStage_eq st o bench plain hrsa haes hbp
        rw [heq2] at h
        have h' : Event.sourceCheck ip
            ∈ Event.decryptKey :: Event.decryptData :: (benchStage st o bench).2.2 := h
        rcases List.mem_cons.mp h' with h1 | h2
        · exact absurd h1 (by simp)
        · rcases List.mem_cons.mp h2 with h3 | h4
          · exact absurd h3 (by simp)
          · obtain ⟨hip, hpow, tail, htl⟩ := benchStage_source st o bench ip h4
            refine ⟨bench, rfl, hip, hpow, tail, ?_⟩
            rw [heq2]
            show Event.decryptKey :: Event.decryptData :: (benchStage st o bench).2.2 = _
            rw [htl]

theorem decryptStage_pow (st : ServerState) (o : SubmitOracle) (d : Int)
    (h : Event.powCheck d ∈ (decryptStage st o).2.2) :
    ∃ b, o.benchParse = some b ∧ d = b.ProofOfWork.Difficulty := by
  by_cases hrsa : o.rsaOk = false
  · have heq2 : decryptStage st o
        = (HResp.unauthorized "Decryption failed", st, [Event.decryptKey]) := by
      unfold decryptStage
      simp [hrsa]
    rw [heq2] at h
    simp at h
  · rw [Bool.not_eq_false] at hrsa
    cases haes : o.aesPlain with
    | none =>
      have heq2 : decryptStage st o
          = (HResp.unauthorized "Decryption failed", st,
             [Event.decryptKey, Event.decryptData]) := by
        unfold decryptStage
        simp [hrsa, haes]
      rw [heq2] at h
      simp at h
    | some plain =>
      cases hbp : o.benchParse with
      | none =>
        have heq2 : decryptStage st o
            = (HResp.badRequest "Invalid benchmark data", st,
               [Event.decryptKey, Event.decryptData]) := by
          unfold decryptStage
          simp [hrsa, haes, hbp]
        rw [heq2] at h
        simp at h
      | some bench =>
        have heq2 := decryptStage_eq st o bench plain hrsa haes hbp
        rw [heq2] at h
        have h' : Event.powCheck d
            ∈ Event.decryptKey :: Event.decryptData :: (benchStage st o bench).2.2 := h
        rcases List.mem_cons.mp h' with h1 | h2
        · exact absurd h1 (by simp)
        · rcases List.mem_cons.mp h2 with h3 | h4
          · exact absurd h3 (by simp)
          · exact ⟨bench, rfl, benchStage_pow st o bench d h4⟩

theorem countId_append (db : List BenchmarkResult) (b : BenchmarkResult) (id : String) :
    countId (db ++ [b]) id = countId db id + (if b.SubmissionID = id then 1 else 0) := by
  unfold countId
  rw [List.filter_append, List.length_append]
  congr 1
  cases hb : (b.SubmissionID == id) with
  | false =>
    rw [if_neg (by simpa using hb)]
    simp [List.filter_cons, hb]
  | true =>
    rw [if_pos (by simpa using hb)]
    simp [List.filter_cons, hb]

theorem submitHandler_db (st : ServerState) (o : SubmitOracle) :
    ((submitHandler st o).2.1.db = st.db
      ∧ ∀ m, (submitHandler st o).1 ≠ HResp.ok m)
    ∨ (o.checkFail = false ∧ countId st.db o.submissionID = 0
       ∧ ∃ b, o.benchParse = some b
        ∧ (submitHandler st o).2.1.db = st.db ++ [{ b with SubmissionID := o.submissionID }]
        ∧ (submitHandler st o).1 = HResp.ok "Benchmark submitted successfully") := by
  unfold submitHandler
  split
  · exact Or.inl ⟨rfl, by simp⟩
  · split
    · exact Or.inl ⟨rfl, by simp⟩
    · split
      · exact Or.inl ⟨rfl, by simp⟩
      · rename_i isUnique hck
        split
        · exact Or.inl ⟨rfl, by simp⟩
        · split
          · exact Or.inl ⟨rfl, by simp⟩
          · rename_i hu hpp
            have hcf : o.checkFail = false := by
              by_contra hc
              rw [Bool.not_eq_false] at hc
              unfold checkSubmissionID at hck
              rw [if_pos hc] at hck
              exact Except.noConfusion hck
            have hcount : countId st.db o.submissionID = 0 := by
              unfold checkSubmissionID at hck
              rw [if_neg (by simp [hcf])] at hck
              have := Except.ok.inj hck
              have hu' : isUnique = true := by
                cases isUnique
                · exact absurd rfl hu
                · rfl
              rw [hu'] at this
              simpa using this
            rcases decryptStage_db st o with ⟨h1, h2⟩ | ⟨b, hb, h1, h2⟩
            · exact Or.inl ⟨h1, h2⟩
            · exact Or.inr ⟨hcf, hcount, b, hb, h1, h2⟩

theorem submitHandler_source (st : ServerState) (o : SubmitOracle) (ip : String)
    (h : Event.sourceCheck ip ∈ (submitHandler st o).2.2) :
    ∃ b, o.benchParse = some b ∧ ip = b.IP
      ∧ VerifyProofOfWork b.ProofOfWork.Challenge b.ProofOfWork.Nonce
          b.ProofOfWork.Difficulty b.ProofOfWork.Timestamp o.now = Except.ok true
      ∧ ∃ tail, (submitHandler st o).2.2
          = Event.replayCheck o.submissionID :: Event.decryptKey :: Event.decryptData
            :: Event.powCheck b.ProofOfWork.Difficulty
            :: Event.sourceCheck b.IP :: tail := by
  by_cases hbr : o.bodyReadOk = false
  · have heq2 : submitHandler st o = (HResp.badRequest "Invalid request payload", st, []) := by
      unfold submitHandler
      simp [hbr]
    rw [heq2] at h
    simp at h
  · rw [Bool.not_eq_false] at hbr
    by_cases hsv : o.sigValid = false
    · have heq2 : submitHandler st o = (HResp.unauthorized "Invalid signature", st, []) := by
        unfold submitHandler
        simp [hbr, hsv]
      rw [heq2] at h
      simp at h
    · rw [Bool.not_eq_false] at hsv
      cases hck : checkSubmissionID o.checkFail st.db o.submissionID with
      | error e =>
        have heq2 : submitHandler st o
            = (HResp.serverError "Failed to check submission", st,
               [Event.replayCheck o.submissionID]) := by
          unfold submitHandler
          simp [hbr, hsv, hck]
        rw [heq2] at h
        simp at h
      | ok isUnique =>
        cases isUnique with
        | false =>
          have heq2 : submitHandler st o
              = (HResp.unauthorized "Not a unique submission", st,
                 [Event.replayCheck o.submissionID]) := by
            unfold submitHandler
            simp [hbr, hsv, hck]
          rw [heq2] at h
          simp at h
        | true =>
          by_cases hpp : o.payloadParseOk = false
          · have heq2 : submitHandler st o
                = (HResp.badRequest "Invalid payload format", st,
                   [Event.replayCheck o.submissionID]) := by
              unfold submitHandler
              simp [hbr, hsv, hck, hpp]
            rw [heq2] at h
            simp at h
          · rw [Bool.not_eq_false] at hpp
            have heq2 := submitHandler_eq st o hbr hsv hck hpp
            rw [heq2] at h
            have h' : Event.sourceCheck ip
                ∈ Event.replayCheck o.submissionID :: (decryptStage st o).2.2 := h
            rcases List.mem_cons.mp h' with h1 | h2
            · exact absurd h1 (by simp)
            · obtain ⟨b, hb, hip, hpow, tail, htl⟩ := decryptStage_source st o ip h2
              refine ⟨b, hb, hip, hpow, tail, ?_⟩
              rw [heq2]
              show Event.replayCheck o.submissionID :: (decryptStage st o).2.2 = _
              rw [htl]

theorem submitHandler_pow (st : ServerState) (o : SubmitOracle) (d : Int)
    (h : Event.powCheck d ∈ (submitHandler st o).2.2) :
    ∃ b, o.benchParse = some b ∧ d = b.ProofOfWork.Difficulty := by
  by_cases hbr : o.bodyReadOk = false
  · have heq2 : submitHandler st o = (HResp.badRequest "Invalid request payload", st, []) := by
      unfold submitHandler
      simp [hbr]
    rw [heq2] at h
    simp at h
  · rw [Bool.not_eq_false] at hbr
    by_cases hsv : o.sigValid = false
    · have heq2 : submitHandler st o = (HResp.unauthorized "Invalid signature", st, []) := by
        unfold submitHandler
        simp [hbr, hsv]
      rw [heq2] at h
      simp at h
    · rw [Bool.not_eq_false] at hsv
      cases hck : checkSubmissionID o.checkFail st.db o.submissionID with
      | error e =>
        have heq2 : submitHandler st o
            = (HResp.serverError "Failed to check submission", st,
               [Event.replayCheck o.submissionID]) := by
          unfold submitHandler
          simp [hbr, hsv, hck]
        rw [heq2] at h
        simp at h
      | ok isUnique =>
        cases isUnique with
        | false =>
          have heq2 : submitHandler st o
              = (HResp.unauthorized "Not a unique submission", st,
                 [Event.replayCheck o.submissionID]) := by
            unfold submitHandler
            simp [hbr, hsv, hck]
          rw [heq2] at h
          simp at h
        | true =>
          by_cases hpp : o.payloadParseOk = false
          · have heq2 : submitHandler st o
                = (HResp.badRequest "Invalid payload format", st,
                   [Event.replayCheck o.submissionID]) := by
              unfold submitHandler
              simp [hbr, hsv, hck, hpp]
            rw [heq2] at h
            simp at h
          · rw [Bool.not_eq_false] at hpp
            have heq2 := submitHandler_eq st o hbr hsv hck hpp
            rw [heq2] at h
            have h' : Event.powCheck d
                ∈ Event.replayCheck o.submissionID :: (decryptStage st o).2.2 := h
            rcases List.mem_cons.mp h' with h1 | h2
            · exact absurd h1 (by simp)
            · exact decryptStage_pow st o d h2

theorem submitHandler_notUnique (st : ServerState) (o : SubmitOracle)
    (h1 : o.bodyReadOk = true) (h2 : o.sigValid = true) (h3 : o.checkFail = false)
    (h4 : countId st.db o.submissionID ≠ 0) :
    (submitHandler st o).1 = HResp.unauthorized "Not a unique submission" := by
  unfold submitHandler
  rw [h1, h2]
  simp only [Bool.true_eq_false, if_false]
  have hck : checkSubmissionID o.checkFail st.db o.submissionID = Except.ok false := by
    unfold checkSubmissionID
    rw [if_neg (by simp [h3])]
    simp [Nat.beq_eq_true_eq, h4]
  simp [hck]

theorem submitRoute_source_of_handler (ol : Bool) (ar : AuthRequest) (aenv : AuthEnv)
    (o : SubmitOracle) (st : ServerState) (ip : String)
    (heqr : (submitRoute ol ar aenv o st).2.2
        = Event.globalRate :: Event.auth :: (submitHandler st o).2.2)
    (h : Event.sourceCheck ip ∈ (submitRoute ol ar aenv o st).2.2) :
    ∃ b, o.benchParse = some b ∧ ip = b.IP
      ∧ VerifyProofOfWork b.ProofOfWork.Challenge b.ProofOfWork.Nonce
          b.ProofOfWork.Difficulty b.ProofOfWork.Timestamp o.now = Except.ok true
      ∧ ∃ l1 tail, (submitRoute ol ar aenv o st).2.2
          = l1 ++ Event.decryptKey :: Event.decryptData
            :: Event.powCheck b.ProofOfWork.Difficulty
            :: Event.sourceCheck b.IP :: tail := by
  rw [heqr] at h
  rcases List.mem_cons.mp h with h1 | h2
  · exact absurd h1 (by simp)
  rcases List.mem_cons.mp h2 with h3 | h4
  · exact absurd h3 (by simp)
  obtain ⟨b, hb, hip, hpow, tail, htl⟩ := submitHandler_source st o ip h4
  refine ⟨b, hb, hip, hpow,
    [Event.globalRate, Event.auth, Event.replayCheck o.submissionID], tail, ?_⟩
  rw [heqr, htl]
  rfl

/-! ## Remaining claim theorems -/

/-- Claim C1: at-most-once acceptance per submission identifier —
`checkSubmissionID` reports fresh exactly when the store holds no record
with that identifier; the handler adds a record only when that check
reported fresh; and after a first accepted-and-persisted request, any
second request with the same identifier is not accepted, adds no record
with that identifier, and (when its signature verifies and the store is
healthy) is rejected as a non-unique submission, whatever its payload. -/
theorem replay_guard_at_most_once :
    (∀ (fail : Bool) (db : List BenchmarkResult) (id : String) (b : Bool),
        checkSubmissionID fail db id = Except.ok b → (b = true ↔ countId db id = 0))
    ∧ (∀ (st : ServerState) (o : SubmitOracle),
        (submitHandler st o).2.1.db ≠ st.db →
        checkSubmissionID o.checkFail st.db o.submissionID = Except.ok true)
    ∧ (∀ (st : ServerState) (o1 : SubmitOracle),
        (submitHandler st o1).1 = HResp.ok "Benchmark submitted successfully" →
        countId (submitHandler st o1).2.1.db o1.submissionID
            = countId st.db o1.submissionID + 1
        ∧ ∀ o2 : SubmitOracle, o2.submissionID = o1.submissionID →
            (∀ m, (submitHandler (submitHandler st o1).2.1 o2).1 ≠ HResp.ok m)
            ∧ countId (submitHandler (submitHandler st o1).2.1 o2).2.1.db o1.submissionID
                = countId (submitHandler st o1).2.1.db o1.submissionID
            ∧ (o2.bodyReadOk = true → o2.sigValid = true → o2.checkFail = false →
                (submitHandler (submitHandler st o1).2.1 o2).1
                  = HResp.unauthorized "Not a unique submission")) := by
  refine ⟨?_, ?_, ?_⟩
  · intro fail db id b h
    unfold checkSubmissionID at h
    split at h
    · exact absurd h (by simp)
    · have hinj := Except.ok.inj h
      constructor
      · intro hb
        rw [hb] at hinj
        simpa using hinj
      · intro hc
        rw [← hinj]
        simp [hc]
  · intro st o hne
    rcases submitHandler_db st o with ⟨h1, h2⟩ | ⟨hcf, hcount, b, hb, h1, h2⟩
    · exact absurd h1 hne
    · unfold checkSubmissionID
      rw [if_neg (by simp [hcf])]
      simp [hcount]
  · intro st o1 hok
    rcases submitHandler_db st o1 with ⟨h1, h2⟩ | ⟨hcf, hcount, b, hb, h1, h2⟩
    · exact absurd hok (h2 _)
    · have hc1 : countId (submitHandler st o1).2.1.db o1.submissionID
          = countId st.db o1.submissionID + 1 := by
        rw [h1, countId_append]
        simp
      refine ⟨hc1, ?_⟩
      intro o2 hid
      have hne : countId (submitHandler st o1).2.1.db o2.submissionID ≠ 0 := by
        rw [hid, hc1]
        omega
      refine ⟨?_, ?_, ?_⟩
      · intro m hm
        rcases submitHandler_db (submitHandler st o1).2.1 o2 with
          ⟨g1, g2⟩ | ⟨gcf, gcount, c, hcp, g1, g2⟩
        · exact g2 m hm
        · exact hne gcount
      · rcases submitHandler_db (submitHandler st o1).2.1 o2 with
          ⟨g1, g2⟩ | ⟨gcf, gcount, c, hcp, g1, g2⟩
        · rw [g1]
        · exact absurd gcount hne
      · intro hb2 hs2 hcf2
        exact submitHandler_notUnique _ o2 hb2 hs2 hcf2 hne

/-- Witness for C1: a concrete first submission with identifier `sub-1`
persists one record, and replaying the identifier with a different payload
is rejected as not unique. -/
theorem replay_guard_at_most_once_witness :
    countId (submitHandler wState0 wOracle1).2.1.db wOracle1.submissionID
        = countId wState0.db wOracle1.submissionID + 1
    ∧ (submitHandler (submitHandler wState0 wOracle1).2.1 wOracle2).1
        = HResp.unauthorized "Not a unique submission" := by
  have h := replay_guard_at_most_once.2.2 wState0 wOracle1 (by decide)
  exact ⟨h.1, ((h.2 wOracle2 rfl).2.2) rfl rfl rfl⟩

/-- Claim C7 (code bug): a storage error during the replay check is
answered with a 500, but a storage error at insertion time is only logged —
the handler writes no response at all and the client sees an empty 200,
not a 5xx. -/
theorem storage_error_response_divergence :
    (submitHandler wState0 wOracleCheckFail).1 = HResp.serverError "Failed to check submission"
    ∧ wireStatus (submitHandler wState0 wOracleCheckFail).1 = 500
    ∧ (submitHandler wState0 wOracleInsertFail).1 = HResp.noResponse
    ∧ wireStatus (submitHandler wState0 wOracleInsertFail).1 = 200 := by
  exact ⟨by decide, by decide, by decide, by decide⟩

/-- Claim C8: the global limiter middleware rejects over-limit requests
before any decryption work (no decryption operation appears in the trace),
while the per-source check runs only in traces where the envelope was
decrypted and the proof of work verified, strictly after the decryption
operations, keyed by the `IP` field of the decrypted payload itself. -/
theorem submit_pipeline_ordering :
    (∀ (ar : AuthRequest) (aenv : AuthEnv) (o : SubmitOracle) (st : ServerState),
        submitRoute true ar aenv o st = (HResp.rateLimited, st, [Event.globalRate])
        ∧ Event.decryptKey ∉ (submitRoute true ar aenv o st).2.2
        ∧ Event.decryptData ∉ (submitRoute true ar aenv o st).2.2)
    ∧ (∀ (ol : Bool) (ar : AuthRequest) (aenv : AuthEnv) (o : SubmitOracle)
         (st : ServerState) (ip : String),
        Event.sourceCheck ip ∈ (submitRoute ol ar aenv o st).2.2 →
        ∃ b, o.benchParse = some b ∧ ip = b.IP
          ∧ VerifyProofOfWork b.ProofOfWork.Challenge b.ProofOfWork.Nonce
              b.ProofOfWork.Difficulty b.ProofOfWork.Timestamp o.now = Except.ok true
          ∧ ∃ l1 tail, (submitRoute ol ar aenv o st).2.2
              = l1 ++ Event.decryptKey :: Event.decryptData
                :: Event.powCheck b.ProofOfWork.Difficulty
                :: Event.sourceCheck b.IP :: tail) := by
  constructor
  · intro ar aenv o st
    have heqr : submitRoute true ar aenv o st = (HResp.rateLimited, st, [Event.globalRate]) := by
      unfold submitRoute
      rfl
    refine ⟨heqr, ?_, ?_⟩ <;> rw [heqr] <;> simp
  · intro ol ar aenv o st ip h
    by_cases hol : ol = true
    · have heqr : submitRoute ol ar aenv o st = (HResp.rateLimited, st, [Event.globalRate]) := by
        unfold submitRoute
        rw [if_pos hol]
      rw [heqr] at h
      simp at h
    · cases ham : authMiddleware st.db ar aenv with
      | missingHeader =>
        have heqr : submitRoute ol ar aenv o st
            = (HResp.unauthorized "Missing Authorization header", st,
               [Event.globalRate, Event.auth]) := by
          unfold submitRoute
          rw [if_neg hol, ham]
        rw [heqr] at h
        simp at h
      | invalidToken msg =>
        have heqr : submitRoute ol ar aenv o st
            = (HResp.unauthorized msg, st, [Event.globalRate, Event.auth]) := by
          unfold submitRoute
          rw [if_neg hol, ham]
        rw [heqr] at h
        simp at h
      | connectFailed =>
        have heqr : submitRoute ol ar aenv o st
            = (HResp.serverError "Failed to connect to database", st,
               [Event.globalRate, Event.auth]) := by
          unfold submitRoute
          rw [if_neg hol, ham]
        rw [heqr] at h
        simp at h
      | noncePanic =>
        have heqr : submitRoute ol ar aenv o st
            = (HResp.panicked, st, [Event.globalRate, Event.auth]) := by
          unfold submitRoute
          rw [if_neg hol, ham]
        rw [heqr] at h
        simp at h
      | checkFailed =>
        exact submitRoute_source_of_handler ol ar aenv o st ip
          (by unfold submitRoute; rw [if_neg hol, ham]) h
      | replayDetected =>
        exact submitRoute_source_of_handler ol ar aenv o st ip
          (by unfold submitRoute; rw [if_neg hol, ham]) h
      | proceed claims =>
        exact submitRoute_source_of_handler ol ar aenv o st ip
          (by unfold submitRoute; rw [if_neg hol, ham]) h

/-- Witness for C8: a concrete full pipeline run whose trace shows the
per-source check after decryption, keyed by the payload's IP. -/
theorem submit_pipeline_ordering_witness :
    ∃ b, wOracle1.benchParse = some b ∧ "1.2.3.4" = b.IP
      ∧ VerifyProofOfWork b.ProofOfWork.Challenge b.ProofOfWork.Nonce
          b.ProofOfWork.Difficulty b.ProofOfWork.Timestamp wOracle1.now = Except.ok true
      ∧ ∃ l1 tail, (submitRoute false wAuthReqGood wAuthEnv wOracle1 wState0).2.2
          = l1 ++ Event.decryptKey :: Event.decryptData
            :: Event.powCheck b.ProofOfWork.Difficulty
            :: Event.sourceCheck b.IP :: tail :=
  submit_pipeline_ordering.2 false wAuthReqGood wAuthEnv wOracle1 wState0 "1.2.3.4" (by decide)

/-- Counterexample to C9's negative-difficulty clause: within the validity
window, supplying difficulty -1 makes `VerifyProofOfWork` panic inside
`strings.Repeat` (modeled as `Except.error`), so verification does not
succeed. -/
theorem pow_negative_difficulty_panics :
    (0 : Int) - 0 ≤ 60 ∧ VerifyProofOfWork "c" "n" (-1) 0 0 = Except.error () :=
  ⟨by norm_num, by decide⟩

/-- Claim C9 (amended): the handler verifies proof of work against the
difficulty carried inside the decrypted payload (every `powCheck` in a
trace carries the parsed benchmark's own difficulty); a supplied difficulty
of zero within the validity window always verifies (empty required
prefix); a negative supplied difficulty panics in `strings.Repeat` instead
of succeeding. -/
theorem pow_difficulty_client_trusted :
    (∀ (st : ServerState) (o : SubmitOracle) (d : Int),
        Event.powCheck d ∈ (submitHandler st o).2.2 →
        ∃ b, o.benchParse = some b ∧ d = b.ProofOfWork.Difficulty)
    ∧ (∀ (challenge nonce : String) (timestamp now : Int),
        now - timestamp ≤ 60 →
        VerifyProofOfWork challenge nonce 0 timestamp now = Except.ok true)
    ∧ (∀ (challenge nonce : String) (d timestamp now : Int),
        now - timestamp ≤ 60 → d < 0 →
        VerifyProofOfWork challenge nonce d timestamp now = Except.error ()) := by
  refine ⟨submitHandler_pow, ?_, ?_⟩
  · intro challenge nonce timestamp now h
    unfold VerifyProofOfWork
    rw [if_neg (by omega)]
    simp only [stringsRepeat_nonneg "0" 0 (by norm_num)]
    simp [show String.join ([] : List String) = "" from rfl, hasPfx_empty]
  · intro challenge nonce d timestamp now h hd
    unfold VerifyProofOfWork
    rw [if_neg (by omega)]
    simp [stringsRepeat_neg "0" d hd]

/-- Witness for C9 (amended): in a concrete trace the `powCheck` carries
the payload's own difficulty, and a zero difficulty verifies. -/
theorem pow_difficulty_client_trusted_witness :
    (∃ b, wOracle1.benchParse = some b ∧ (0 : Int) = b.ProofOfWork.Difficulty)
    ∧ VerifyProofOfWork "x" "y" 0 0 0 = Except.ok true :=
  ⟨pow_difficulty_client_trusted.1 wState0 wOracle1 0 (by decide),
   pow_difficulty_client_trusted.2.1 "x" "y" 0 0 (by norm_num)⟩

end Ollamark
